import Mathlib

/-!
Verification of the EPUB chapter-extraction core
(`audiobook_generator/book_parsers/epub_book_parser.py`).

Strings are modelled as `List Char` (`Str`).  Python's Unicode character
classes `\d` and `\w` are embedded exactly, as the codepoint-range tables
of CPython 3.11 (Unicode 14.0.0); `\s` is modelled on its ASCII fragment
plus NBSP, which the claims below never distinguish.  Each regex
used by the source is simple enough (literal replacement, single-character
classes, maximal runs, one fixed-width lookbehind) that its leftmost-longest
`re.sub` semantics is implemented directly by a left-to-right scan.
-/

set_option maxRecDepth 16384

abbrev Str := List Char

/-- Python `\s` (ASCII fragment plus NBSP): the whitespace characters relevant
to the source's regexes `\s+` and to `str.strip()`. -/
def isWs (c : Char) : Bool :=
  c = ' ' || c = '\t' || c = '\n' || c = '\r' || c = '\x0b' || c = '\x0c' || c = ' '

/-- The codepoint ranges matched by Python's `\d` in `str` patterns
(CPython 3.11, Unicode 14.0.0): the Unicode decimal digits, category `Nd`.
Generated by testing `re.match(r'\d', chr(cp))` for every codepoint. -/
def digitRanges : List (Nat × Nat) :=
  [(0x30, 0x39), (0x660, 0x669), (0x6F0, 0x6F9), (0x7C0, 0x7C9),
   (0x966, 0x96F), (0x9E6, 0x9EF), (0xA66, 0xA6F), (0xAE6, 0xAEF),
   (0xB66, 0xB6F), (0xBE6, 0xBEF), (0xC66, 0xC6F), (0xCE6, 0xCEF),
   (0xD66, 0xD6F), (0xDE6, 0xDEF), (0xE50, 0xE59), (0xED0, 0xED9),
   (0xF20, 0xF29), (0x1040, 0x1049), (0x1090, 0x1099), (0x17E0, 0x17E9),
   (0x1810, 0x1819), (0x1946, 0x194F), (0x19D0, 0x19D9), (0x1A80, 0x1A89),
   (0x1A90, 0x1A99), (0x1B50, 0x1B59), (0x1BB0, 0x1BB9), (0x1C40, 0x1C49),
   (0x1C50, 0x1C59), (0xA620, 0xA629), (0xA8D0, 0xA8D9), (0xA900, 0xA909),
   (0xA9D0, 0xA9D9), (0xA9F0, 0xA9F9), (0xAA50, 0xAA59), (0xABF0, 0xABF9),
   (0xFF10, 0xFF19), (0x104A0, 0x104A9), (0x10D30, 0x10D39),
   (0x11066, 0x1106F), (0x110F0, 0x110F9), (0x11136, 0x1113F),
   (0x111D0, 0x111D9), (0x112F0, 0x112F9), (0x11450, 0x11459),
   (0x114D0, 0x114D9), (0x11650, 0x11659), (0x116C0, 0x116C9),
   (0x11730, 0x11739), (0x118E0, 0x118E9), (0x11950, 0x11959),
   (0x11C50, 0x11C59), (0x11D50, 0x11D59), (0x11DA0, 0x11DA9),
   (0x16A60, 0x16A69), (0x16AC0, 0x16AC9), (0x16B50, 0x16B59),
   (0x1D7CE, 0x1D7FF), (0x1E140, 0x1E149), (0x1E2F0, 0x1E2F9),
   (0x1E950, 0x1E959), (0x1FBF0, 0x1FBF9)]

/-- Python `\d`. -/
def isDig (c : Char) : Bool :=
  digitRanges.any (fun r => r.1 ≤ c.toNat && c.toNat ≤ r.2)

/-- The codepoint ranges matched by Python's `\w` in `str` patterns
(CPython 3.11, Unicode 14.0.0): underscore plus the Unicode alphanumeric
characters.  Generated by testing `re.match(r'\w', chr(cp))` for every
codepoint. -/
def wordRanges : List (Nat × Nat) :=
  [(0x30, 0x39), (0x41, 0x5A), (0x5F, 0x5F), (0x61, 0x7A), (0xAA, 0xAA),
   (0xB2, 0xB3), (0xB5, 0xB5), (0xB9, 0xBA), (0xBC, 0xBE), (0xC0, 0xD6),
   (0xD8, 0xF6), (0xF8, 0x2C1), (0x2C6, 0x2D1), (0x2E0, 0x2E4),
   (0x2EC, 0x2EC), (0x2EE, 0x2EE), (0x370, 0x374), (0x376, 0x377),
   (0x37A, 0x37D), (0x37F, 0x37F), (0x386, 0x386), (0x388, 0x38A),
   (0x38C, 0x38C), (0x38E, 0x3A1), (0x3A3, 0x3F5), (0x3F7, 0x481),
   (0x48A, 0x52F), (0x531, 0x556), (0x559, 0x559), (0x560, 0x588),
   (0x5D0, 0x5EA), (0x5EF, 0x5F2), (0x620, 0x64A), (0x660, 0x669),
   (0x66E, 0x66F), (0x671, 0x6D3), (0x6D5, 0x6D5), (0x6E5, 0x6E6),
   (0x6EE, 0x6FC), (0x6FF, 0x6FF), (0x710, 0x710), (0x712, 0x72F),
   (0x74D, 0x7A5), (0x7B1, 0x7B1), (0x7C0, 0x7EA), (0x7F4, 0x7F5),
   (0x7FA, 0x7FA), (0x800, 0x815), (0x81A, 0x81A), (0x824, 0x824),
   (0x828, 0x828), (0x840, 0x858), (0x860, 0x86A), (0x870, 0x887),
   (0x889, 0x88E), (0x8A0, 0x8C9), (0x904, 0x939), (0x93D, 0x93D),
   (0x950, 0x950), (0x958, 0x961), (0x966, 0x96F), (0x971, 0x980),
   (0x985, 0x98C), (0x98F, 0x990), (0x993, 0x9A8), (0x9AA, 0x9B0),
   (0x9B2, 0x9B2), (0x9B6, 0x9B9), (0x9BD, 0x9BD), (0x9CE, 0x9CE),
   (0x9DC, 0x9DD), (0x9DF, 0x9E1), (0x9E6, 0x9F1), (0x9F4, 0x9F9),
   (0x9FC, 0x9FC), (0xA05, 0xA0A), (0xA0F, 0xA10), (0xA13, 0xA28),
   (0xA2A, 0xA30), (0xA32, 0xA33), (0xA35, 0xA36), (0xA38, 0xA39),
   (0xA59, 0xA5C), (0xA5E, 0xA5E), (0xA66, 0xA6F), (0xA72, 0xA74),
   (0xA85, 0xA8D), (0xA8F, 0xA91), (0xA93, 0xAA8), (0xAAA, 0xAB0),
   (0xAB2, 0xAB3), (0xAB5, 0xAB9), (0xABD, 0xABD), (0xAD0, 0xAD0),
   (0xAE0, 0xAE1), (0xAE6, 0xAEF), (0xAF9, 0xAF9), (0xB05, 0xB0C),
   (0xB0F, 0xB10), (0xB13, 0xB28), (0xB2A, 0xB30), (0xB32, 0xB33),
   (0xB35, 0xB39), (0xB3D, 0xB3D), (0xB5C, 0xB5D), (0xB5F, 0xB61),
   (0xB66, 0xB6F), (0xB71, 0xB77), (0xB83, 0xB83), (0xB85, 0xB8A),
   (0xB8E, 0xB90), (0xB92, 0xB95), (0xB99, 0xB9A), (0xB9C, 0xB9C),
   (0xB9E, 0xB9F), (0xBA3, 0xBA4), (0xBA8, 0xBAA), (0xBAE, 0xBB9),
   (0xBD0, 0xBD0), (0xBE6, 0xBF2), (0xC05, 0xC0C), (0xC0E, 0xC10),
   (0xC12, 0xC28), (0xC2A, 0xC39), (0xC3D, 0xC3D), (0xC58, 0xC5A),
   (0xC5D, 0xC5D), (0xC60, 0xC61), (0xC66, 0xC6F), (0xC78, 0xC7E),
   (0xC80, 0xC80), (0xC85, 0xC8C), (0xC8E, 0xC90), (0xC92, 0xCA8),
   (0xCAA, 0xCB3), (0xCB5, 0xCB9), (0xCBD, 0xCBD), (0xCDD, 0xCDE),
   (0xCE0, 0xCE1), (0xCE6, 0xCEF), (0xCF1, 0xCF2), (0xD04, 0xD0C),
   (0xD0E, 0xD10), (0xD12, 0xD3A), (0xD3D, 0xD3D), (0xD4E, 0xD4E),
   (0xD54, 0xD56), (0xD58, 0xD61), (0xD66, 0xD78), (0xD7A, 0xD7F),
   (0xD85, 0xD96), (0xD9A, 0xDB1), (0xDB3, 0xDBB), (0xDBD, 0xDBD),
   (0xDC0, 0xDC6), (0xDE6, 0xDEF), (0xE01, 0xE30), (0xE32, 0xE33),
   (0xE40, 0xE46), (0xE50, 0xE59), (0xE81, 0xE82), (0xE84, 0xE84),
   (0xE86, 0xE8A), (0xE8C, 0xEA3), (0xEA5, 0xEA5), (0xEA7, 0xEB0),
   (0xEB2, 0xEB3), (0xEBD, 0xEBD), (0xEC0, 0xEC4), (0xEC6, 0xEC6),
   (0xED0, 0xED9), (0xEDC, 0xEDF), (0xF00, 0xF00), (0xF20, 0xF33),
   (0xF40, 0xF47), (0xF49, 0xF6C), (0xF88, 0xF8C), (0x1000, 0x102A),
   (0x103F, 0x1049), (0x1050, 0x1055), (0x105A, 0x105D), (0x1061, 0x1061),
   (0x1065, 0x1066), (0x106E, 0x1070), (0x1075, 0x1081), (0x108E, 0x108E),
   (0x1090, 0x1099), (0x10A0, 0x10C5), (0x10C7, 0x10C7), (0x10CD, 0x10CD),
   (0x10D0, 0x10FA), (0x10FC, 0x1248), (0x124A, 0x124D), (0x1250, 0x1256),
   (0x1258, 0x1258), (0x125A, 0x125D), (0x1260, 0x1288), (0x128A, 0x128D),
   (0x1290, 0x12B0), (0x12B2, 0x12B5), (0x12B8, 0x12BE), (0x12C0, 0x12C0),
   (0x12C2, 0x12C5), (0x12C8, 0x12D6), (0x12D8, 0x1310), (0x1312, 0x1315),
   (0x1318, 0x135A), (0x1369, 0x137C), (0x1380, 0x138F), (0x13A0, 0x13F5),
   (0x13F8, 0x13FD), (0x1401, 0x166C), (0x166F, 0x167F), (0x1681, 0x169A),
   (0x16A0, 0x16EA), (0x16EE, 0x16F8), (0x1700, 0x1711), (0x171F, 0x1731),
   (0x1740, 0x1751), (0x1760, 0x176C), (0x176E, 0x1770), (0x1780, 0x17B3),
   (0x17D7, 0x17D7), (0x17DC, 0x17DC), (0x17E0, 0x17E9), (0x17F0, 0x17F9),
   (0x1810, 0x1819), (0x1820, 0x1878), (0x1880, 0x1884), (0x1887, 0x18A8),
   (0x18AA, 0x18AA), (0x18B0, 0x18F5), (0x1900, 0x191E), (0x1946, 0x196D),
   (0x1970, 0x1974), (0x1980, 0x19AB), (0x19B0, 0x19C9), (0x19D0, 0x19DA),
   (0x1A00, 0x1A16), (0x1A20, 0x1A54), (0x1A80, 0x1A89), (0x1A90, 0x1A99),
   (0x1AA7, 0x1AA7), (0x1B05, 0x1B33), (0x1B45, 0x1B4C), (0x1B50, 0x1B59),
   (0x1B83, 0x1BA0), (0x1BAE, 0x1BE5), (0x1C00, 0x1C23), (0x1C40, 0x1C49),
   (0x1C4D, 0x1C7D), (0x1C80, 0x1C88), (0x1C90, 0x1CBA), (0x1CBD, 0x1CBF),
   (0x1CE9, 0x1CEC), (0x1CEE, 0x1CF3), (0x1CF5, 0x1CF6), (0x1CFA, 0x1CFA),
   (0x1D00, 0x1DBF), (0x1E00, 0x1F15), (0x1F18, 0x1F1D), (0x1F20, 0x1F45),
   (0x1F48, 0x1F4D), (0x1F50, 0x1F57), (0x1F59, 0x1F59), (0x1F5B, 0x1F5B),
   (0x1F5D, 0x1F5D), (0x1F5F, 0x1F7D), (0x1F80, 0x1FB4), (0x1FB6, 0x1FBC),
   (0x1FBE, 0x1FBE), (0x1FC2, 0x1FC4), (0x1FC6, 0x1FCC), (0x1FD0, 0x1FD3),
   (0x1FD6, 0x1FDB), (0x1FE0, 0x1FEC), (0x1FF2, 0x1FF4), (0x1FF6, 0x1FFC),
   (0x2070, 0x2071), (0x2074, 0x2079), (0x207F, 0x2089), (0x2090, 0x209C),
   (0x2102, 0x2102), (0x2107, 0x2107), (0x210A, 0x2113), (0x2115, 0x2115),
   (0x2119, 0x211D), (0x2124, 0x2124), (0x2126, 0x2126), (0x2128, 0x2128),
   (0x212A, 0x212D), (0x212F, 0x2139), (0x213C, 0x213F), (0x2145, 0x2149),
   (0x214E, 0x214E), (0x2150, 0x2189), (0x2460, 0x249B), (0x24EA, 0x24FF),
   (0x2776, 0x2793), (0x2C00, 0x2CE4), (0x2CEB, 0x2CEE), (0x2CF2, 0x2CF3),
   (0x2CFD, 0x2CFD), (0x2D00, 0x2D25), (0x2D27, 0x2D27), (0x2D2D, 0x2D2D),
   (0x2D30, 0x2D67), (0x2D6F, 0x2D6F), (0x2D80, 0x2D96), (0x2DA0, 0x2DA6),
   (0x2DA8, 0x2DAE), (0x2DB0, 0x2DB6), (0x2DB8, 0x2DBE), (0x2DC0, 0x2DC6),
   (0x2DC8, 0x2DCE), (0x2DD0, 0x2DD6), (0x2DD8, 0x2DDE), (0x2E2F, 0x2E2F),
   (0x3005, 0x3007), (0x3021, 0x3029), (0x3031, 0x3035), (0x3038, 0x303C),
   (0x3041, 0x3096), (0x309D, 0x309F), (0x30A1, 0x30FA), (0x30FC, 0x30FF),
   (0x3105, 0x312F), (0x3131, 0x318E), (0x3192, 0x3195), (0x31A0, 0x31BF),
   (0x31F0, 0x31FF), (0x3220, 0x3229), (0x3248, 0x324F), (0x3251, 0x325F),
   (0x3280, 0x3289), (0x32B1, 0x32BF), (0x3400, 0x4DBF), (0x4E00, 0xA48C),
   (0xA4D0, 0xA4FD), (0xA500, 0xA60C), (0xA610, 0xA62B), (0xA640, 0xA66E),
   (0xA67F, 0xA69D), (0xA6A0, 0xA6EF), (0xA717, 0xA71F), (0xA722, 0xA788),
   (0xA78B, 0xA7CA), (0xA7D0, 0xA7D1), (0xA7D3, 0xA7D3), (0xA7D5, 0xA7D9),
   (0xA7F2, 0xA801), (0xA803, 0xA805), (0xA807, 0xA80A), (0xA80C, 0xA822),
   (0xA830, 0xA835), (0xA840, 0xA873), (0xA882, 0xA8B3), (0xA8D0, 0xA8D9),
   (0xA8F2, 0xA8F7), (0xA8FB, 0xA8FB), (0xA8FD, 0xA8FE), (0xA900, 0xA925),
   (0xA930, 0xA946), (0xA960, 0xA97C), (0xA984, 0xA9B2), (0xA9CF, 0xA9D9),
   (0xA9E0, 0xA9E4), (0xA9E6, 0xA9FE), (0xAA00, 0xAA28), (0xAA40, 0xAA42),
   (0xAA44, 0xAA4B), (0xAA50, 0xAA59), (0xAA60, 0xAA76), (0xAA7A, 0xAA7A),
   (0xAA7E, 0xAAAF), (0xAAB1, 0xAAB1), (0xAAB5, 0xAAB6), (0xAAB9, 0xAABD),
   (0xAAC0, 0xAAC0), (0xAAC2, 0xAAC2), (0xAADB, 0xAADD), (0xAAE0, 0xAAEA),
   (0xAAF2, 0xAAF4), (0xAB01, 0xAB06), (0xAB09, 0xAB0E), (0xAB11, 0xAB16),
   (0xAB20, 0xAB26), (0xAB28, 0xAB2E), (0xAB30, 0xAB5A), (0xAB5C, 0xAB69),
   (0xAB70, 0xABE2), (0xABF0, 0xABF9), (0xAC00, 0xD7A3), (0xD7B0, 0xD7C6),
   (0xD7CB, 0xD7FB), (0xF900, 0xFA6D), (0xFA70, 0xFAD9), (0xFB00, 0xFB06),
   (0xFB13, 0xFB17), (0xFB1D, 0xFB1D), (0xFB1F, 0xFB28), (0xFB2A, 0xFB36),
   (0xFB38, 0xFB3C), (0xFB3E, 0xFB3E), (0xFB40, 0xFB41), (0xFB43, 0xFB44),
   (0xFB46, 0xFBB1), (0xFBD3, 0xFD3D), (0xFD50, 0xFD8F), (0xFD92, 0xFDC7),
   (0xFDF0, 0xFDFB), (0xFE70, 0xFE74), (0xFE76, 0xFEFC), (0xFF10, 0xFF19),
   (0xFF21, 0xFF3A), (0xFF41, 0xFF5A), (0xFF66, 0xFFBE), (0xFFC2, 0xFFC7),
   (0xFFCA, 0xFFCF), (0xFFD2, 0xFFD7), (0xFFDA, 0xFFDC),
   (0x10000, 0x1000B), (0x1000D, 0x10026), (0x10028, 0x1003A),
   (0x1003C, 0x1003D), (0x1003F, 0x1004D), (0x10050, 0x1005D),
   (0x10080, 0x100FA), (0x10107, 0x10133), (0x10140, 0x10178),
   (0x1018A, 0x1018B), (0x10280, 0x1029C), (0x102A0, 0x102D0),
   (0x102E1, 0x102FB), (0x10300, 0x10323), (0x1032D, 0x1034A),
   (0x10350, 0x10375), (0x10380, 0x1039D), (0x103A0, 0x103C3),
   (0x103C8, 0x103CF), (0x103D1, 0x103D5), (0x10400, 0x1049D),
   (0x104A0, 0x104A9), (0x104B0, 0x104D3), (0x104D8, 0x104FB),
   (0x10500, 0x10527), (0x10530, 0x10563), (0x10570, 0x1057A),
   (0x1057C, 0x1058A), (0x1058C, 0x10592), (0x10594, 0x10595),
   (0x10597, 0x105A1), (0x105A3, 0x105B1), (0x105B3, 0x105B9),
   (0x105BB, 0x105BC), (0x10600, 0x10736), (0x10740, 0x10755),
   (0x10760, 0x10767), (0x10780, 0x10785), (0x10787, 0x107B0),
   (0x107B2, 0x107BA), (0x10800, 0x10805), (0x10808, 0x10808),
   (0x1080A, 0x10835), (0x10837, 0x10838), (0x1083C, 0x1083C),
   (0x1083F, 0x10855), (0x10858, 0x10876), (0x10879, 0x1089E),
   (0x108A7, 0x108AF), (0x108E0, 0x108F2), (0x108F4, 0x108F5),
   (0x108FB, 0x1091B), (0x10920, 0x10939), (0x10980, 0x109B7),
   (0x109BC, 0x109CF), (0x109D2, 0x10A00), (0x10A10, 0x10A13),
   (0x10A15, 0x10A17), (0x10A19, 0x10A35), (0x10A40, 0x10A48),
   (0x10A60, 0x10A7E), (0x10A80, 0x10A9F), (0x10AC0, 0x10AC7),
   (0x10AC9, 0x10AE4), (0x10AEB, 0x10AEF), (0x10B00, 0x10B35),
   (0x10B40, 0x10B55), (0x10B58, 0x10B72), (0x10B78, 0x10B91),
   (0x10BA9, 0x10BAF), (0x10C00, 0x10C48), (0x10C80, 0x10CB2),
   (0x10CC0, 0x10CF2), (0x10CFA, 0x10D23), (0x10D30, 0x10D39),
   (0x10E60, 0x10E7E), (0x10E80, 0x10EA9), (0x10EB0, 0x10EB1),
   (0x10F00, 0x10F27), (0x10F30, 0x10F45), (0x10F51, 0x10F54),
   (0x10F70, 0x10F81), (0x10FB0, 0x10FCB), (0x10FE0, 0x10FF6),
   (0x11003, 0x11037), (0x11052, 0x1106F), (0x11071, 0x11072),
   (0x11075, 0x11075), (0x11083, 0x110AF), (0x110D0, 0x110E8),
   (0x110F0, 0x110F9), (0x11103, 0x11126), (0x11136, 0x1113F),
   (0x11144, 0x11144), (0x11147, 0x11147), (0x11150, 0x11172),
   (0x11176, 0x11176), (0x11183, 0x111B2), (0x111C1, 0x111C4),
   (0x111D0, 0x111DA), (0x111DC, 0x111DC), (0x111E1, 0x111F4),
   (0x11200, 0x11211), (0x11213, 0x1122B), (0x11280, 0x11286),
   (0x11288, 0x11288), (0x1128A, 0x1128D), (0x1128F, 0x1129D),
   (0x1129F, 0x112A8), (0x112B0, 0x112DE), (0x112F0, 0x112F9),
   (0x11305, 0x1130C), (0x1130F, 0x11310), (0x11313, 0x11328),
   (0x1132A, 0x11330), (0x11332, 0x11333), (0x11335, 0x11339),
   (0x1133D, 0x1133D), (0x11350, 0x11350), (0x1135D, 0x11361),
   (0x11400, 0x11434), (0x11447, 0x1144A), (0x11450, 0x11459),
   (0x1145F, 0x11461), (0x11480, 0x114AF), (0x114C4, 0x114C5),
   (0x114C7, 0x114C7), (0x114D0, 0x114D9), (0x11580, 0x115AE),
   (0x115D8, 0x115DB), (0x11600, 0x1162F), (0x11644, 0x11644),
   (0x11650, 0x11659), (0x11680, 0x116AA), (0x116B8, 0x116B8),
   (0x116C0, 0x116C9), (0x11700, 0x1171A), (0x11730, 0x1173B),
   (0x11740, 0x11746), (0x11800, 0x1182B), (0x118A0, 0x118F2),
   (0x118FF, 0x11906), (0x11909, 0x11909), (0x1190C, 0x11913),
   (0x11915, 0x11916), (0x11918, 0x1192F), (0x1193F, 0x1193F),
   (0x11941, 0x11941), (0x11950, 0x11959), (0x119A0, 0x119A7),
   (0x119AA, 0x119D0), (0x119E1, 0x119E1), (0x119E3, 0x119E3),
   (0x11A00, 0x11A00), (0x11A0B, 0x11A32), (0x11A3A, 0x11A3A),
   (0x11A50, 0x11A50), (0x11A5C, 0x11A89), (0x11A9D, 0x11A9D),
   (0x11AB0, 0x11AF8), (0x11C00, 0x11C08), (0x11C0A, 0x11C2E),
   (0x11C40, 0x11C40), (0x11C50, 0x11C6C), (0x11C72, 0x11C8F),
   (0x11D00, 0x11D06), (0x11D08, 0x11D09), (0x11D0B, 0x11D30),
   (0x11D46, 0x11D46), (0x11D50, 0x11D59), (0x11D60, 0x11D65),
   (0x11D67, 0x11D68), (0x11D6A, 0x11D89), (0x11D98, 0x11D98),
   (0x11DA0, 0x11DA9), (0x11EE0, 0x11EF2), (0x11FB0, 0x11FB0),
   (0x11FC0, 0x11FD4), (0x12000, 0x12399), (0x12400, 0x1246E),
   (0x12480, 0x12543), (0x12F90, 0x12FF0), (0x13000, 0x1342E),
   (0x14400, 0x14646), (0x16800, 0x16A38), (0x16A40, 0x16A5E),
   (0x16A60, 0x16A69), (0x16A70, 0x16ABE), (0x16AC0, 0x16AC9),
   (0x16AD0, 0x16AED), (0x16B00, 0x16B2F), (0x16B40, 0x16B43),
   (0x16B50, 0x16B59), (0x16B5B, 0x16B61), (0x16B63, 0x16B77),
   (0x16B7D, 0x16B8F), (0x16E40, 0x16E96), (0x16F00, 0x16F4A),
   (0x16F50, 0x16F50), (0x16F93, 0x16F9F), (0x16FE0, 0x16FE1),
   (0x16FE3, 0x16FE3), (0x17000, 0x187F7), (0x18800, 0x18CD5),
   (0x18D00, 0x18D08), (0x1AFF0, 0x1AFF3), (0x1AFF5, 0x1AFFB),
   (0x1AFFD, 0x1AFFE), (0x1B000, 0x1B122), (0x1B150, 0x1B152),
   (0x1B164, 0x1B167), (0x1B170, 0x1B2FB), (0x1BC00, 0x1BC6A),
   (0x1BC70, 0x1BC7C), (0x1BC80, 0x1BC88), (0x1BC90, 0x1BC99),
   (0x1D2E0, 0x1D2F3), (0x1D360, 0x1D378), (0x1D400, 0x1D454),
   (0x1D456, 0x1D49C), (0x1D49E, 0x1D49F), (0x1D4A2, 0x1D4A2),
   (0x1D4A5, 0x1D4A6), (0x1D4A9, 0x1D4AC), (0x1D4AE, 0x1D4B9),
   (0x1D4BB, 0x1D4BB), (0x1D4BD, 0x1D4C3), (0x1D4C5, 0x1D505),
   (0x1D507, 0x1D50A), (0x1D50D, 0x1D514), (0x1D516, 0x1D51C),
   (0x1D51E, 0x1D539), (0x1D53B, 0x1D53E), (0x1D540, 0x1D544),
   (0x1D546, 0x1D546), (0x1D54A, 0x1D550), (0x1D552, 0x1D6A5),
   (0x1D6A8, 0x1D6C0), (0x1D6C2, 0x1D6DA), (0x1D6DC, 0x1D6FA),
   (0x1D6FC, 0x1D714), (0x1D716, 0x1D734), (0x1D736, 0x1D74E),
   (0x1D750, 0x1D76E), (0x1D770, 0x1D788), (0x1D78A, 0x1D7A8),
   (0x1D7AA, 0x1D7C2), (0x1D7C4, 0x1D7CB), (0x1D7CE, 0x1D7FF),
   (0x1DF00, 0x1DF1E), (0x1E100, 0x1E12C), (0x1E137, 0x1E13D),
   (0x1E140, 0x1E149), (0x1E14E, 0x1E14E), (0x1E290, 0x1E2AD),
   (0x1E2C0, 0x1E2EB), (0x1E2F0, 0x1E2F9), (0x1E7E0, 0x1E7E6),
   (0x1E7E8, 0x1E7EB), (0x1E7ED, 0x1E7EE), (0x1E7F0, 0x1E7FE),
   (0x1E800, 0x1E8C4), (0x1E8C7, 0x1E8CF), (0x1E900, 0x1E943),
   (0x1E94B, 0x1E94B), (0x1E950, 0x1E959), (0x1EC71, 0x1ECAB),
   (0x1ECAD, 0x1ECAF), (0x1ECB1, 0x1ECB4), (0x1ED01, 0x1ED2D),
   (0x1ED2F, 0x1ED3D), (0x1EE00, 0x1EE03), (0x1EE05, 0x1EE1F),
   (0x1EE21, 0x1EE22), (0x1EE24, 0x1EE24), (0x1EE27, 0x1EE27),
   (0x1EE29, 0x1EE32), (0x1EE34, 0x1EE37), (0x1EE39, 0x1EE39),
   (0x1EE3B, 0x1EE3B), (0x1EE42, 0x1EE42), (0x1EE47, 0x1EE47),
   (0x1EE49, 0x1EE49), (0x1EE4B, 0x1EE4B), (0x1EE4D, 0x1EE4F),
   (0x1EE51, 0x1EE52), (0x1EE54, 0x1EE54), (0x1EE57, 0x1EE57),
   (0x1EE59, 0x1EE59), (0x1EE5B, 0x1EE5B), (0x1EE5D, 0x1EE5D),
   (0x1EE5F, 0x1EE5F), (0x1EE61, 0x1EE62), (0x1EE64, 0x1EE64),
   (0x1EE67, 0x1EE6A), (0x1EE6C, 0x1EE72), (0x1EE74, 0x1EE77),
   (0x1EE79, 0x1EE7C), (0x1EE7E, 0x1EE7E), (0x1EE80, 0x1EE89),
   (0x1EE8B, 0x1EE9B), (0x1EEA1, 0x1EEA3), (0x1EEA5, 0x1EEA9),
   (0x1EEAB, 0x1EEBB), (0x1F100, 0x1F10C), (0x1FBF0, 0x1FBF9),
   (0x20000, 0x2A6DF), (0x2A700, 0x2B738), (0x2B740, 0x2B81D),
   (0x2B820, 0x2CEA1), (0x2CEB0, 0x2EBE0), (0x2F800, 0x2FA1D),
   (0x30000, 0x3134A)]

/-- Python `\w`. -/
def isWordChar (c : Char) : Bool :=
  wordRanges.any (fun r => r.1 ≤ c.toNat && c.toNat ≤ r.2)

/-- Python `str.strip()`: remove leading and trailing whitespace. -/
def strip (s : Str) : Str :=
  ((s.dropWhile isWs).reverse.dropWhile isWs).reverse

/-- Python `s.replace("", r)` semantics: `r` is inserted at every position. -/
def replaceEmptyPat (r s : Str) : Str :=
  r ++ s.flatMap (fun c => c :: r)

/-- Scanner for `str.replace` with a non-empty pattern: replaces
non-overlapping occurrences left to right.  The fuel argument makes the
recursion structural (callers pass `s.length`, which always suffices;
running out of fuel returns the rest unchanged). -/
def replGo (p r : Str) : Nat → Str → Str
  | _, [] => []
  | 0, s => s
  | fuel + 1, c :: cs =>
    if p.isPrefixOf (c :: cs) then r ++ replGo p r fuel (cs.drop (p.length - 1))
    else c :: replGo p r fuel cs

/-- Python `s.replace(p, r)` (all occurrences, left to right, non-overlapping). -/
def replaceAll (p r s : Str) : Str :=
  if p = [] then replaceEmptyPat r s else replGo p r s.length s

/-- `re.sub(r"\s+", " ", s)`: collapse every maximal whitespace run to one
space.  The boolean state records whether the previous character was part of
a whitespace run. -/
def swGo (prevWs : Bool) : Str → Str
  | [] => []
  | c :: cs =>
    if isWs c then (if prevWs then [] else [' ']) ++ swGo true cs
    else c :: swGo false cs

def squashWs (s : Str) : Str := swGo false s

/-- `re.sub(r"\s+", "_", s)`: collapse every maximal whitespace run to one
underscore (used by `sanitize_title`). -/
def uwGo (prevWs : Bool) : Str → Str
  | [] => []
  | c :: cs =>
    if isWs c then (if prevWs then [] else ['_']) ++ uwGo true cs
    else c :: uwGo false cs

def underscoreWs (s : Str) : Str := uwGo false s

/-- `re.sub(r"[\n]+", m, s)`: every maximal run of one-or-more newlines
becomes one copy of the break marker `m`. -/
def csGo (m : Str) (prevNl : Bool) : Str → Str
  | [] => []
  | c :: cs =>
    if c = '\n' then (if prevNl then [] else m) ++ csGo m true cs
    else c :: csGo m false cs

def collapseSingle (m s : Str) : Str := csGo m false s

/-- `re.sub(r"[\n]{2,}", m, s)`: only maximal runs of two-or-more newlines
become the break marker; an isolated newline is kept.  The boolean state
records being inside a run that has already emitted the marker. -/
def cdGo (m : Str) (inRun : Bool) : Str → Str
  | [] => []
  | c :: cs =>
    if c = '\n' then
      if inRun then cdGo m true cs
      else if cs.head? = some '\n' then m ++ cdGo m true cs
      else '\n' :: cdGo m false cs
    else c :: cdGo m false cs

def collapseDouble (m s : Str) : Str := cdGo m false s

/-- `prep_text` (source lines 43-67): the ordered literal substitution list,
followed by `strip()`.  The non-ASCII patterns are the file's literal
(encoding-corrupted) characters. -/
def prep_text (t : Str) : Str :=
  let t := replaceAll "--".data ", ".data t
  let t := replaceAll "вҖ”".data ", ".data t
  let t := replaceAll ";".data ", ".data t
  let t := replaceAll ":".data ", ".data t
  let t := replaceAll "''".data ", ".data t
  let t := replaceAll "вҖҷ".data "'".data t
  let t := replaceAll "вҖң".data "\"".data t
  let t := replaceAll "вҖқ".data "\"".data t
  let t := replaceAll "в—Ү".data "".data t
  let t := replaceAll "В .В .В . ".data ", ".data t
  let t := replaceAll "... ".data ", ".data t
  let t := replaceAll "В«".data " ".data t
  let t := replaceAll "В»".data " ".data t
  let t := replaceAll "[".data "".data t
  let t := replaceAll "]".data "".data t
  let t := replaceAll "&".data " and ".data t
  let t := replaceAll " GNU ".data " new ".data t
  let t := replaceAll "\n".data " \n".data t
  let t := replaceAll "*".data " ".data t
  strip t

example : prep_text "He said--\"Hello;there.\"".data = "He said, \"Hello, there.\"".data := by decide

example : squashWs "a  \n b".data = "a b".data := by decide
example : collapseSingle "X".data "a\n\nb".data = "aXb".data := by decide
example : collapseDouble "X".data "a\nb\n\n\nc".data = "a\nbXc".data := by decide
example : replaceAll "".data "X".data "ab".data = "XaXbX".data := by decide

/-- The lookbehind class of the endnote regex
`(?<=[a-zA-Z.,!?;вҖқ")])\d+` (source line 144): Latin letters, sentence
punctuation, the file's three literal corrupted-quote characters, the double
quote, and the closing parenthesis. -/
def endnoteClass (c : Char) : Bool :=
  ((97 ≤ c.toNat && c.toNat ≤ 122) || (65 ≤ c.toNat && c.toNat ≤ 90)) ||
    c = '.' || c = ',' || c = '!' || c = '?' || c = ';' ||
    c = 'в' || c = 'Җ' || c = 'қ' || c = '"' || c = ')'

def prevInClass : Option Char → Bool
  | none => false
  | some c => endnoteClass c

/-- `re.sub(r'(?<=[a-zA-Z.,!?;вҖқ")])\d+', "", s)`: a maximal decimal-digit
run is deleted exactly when the character immediately before it is in the
lookbehind class.  `prev` is the previous character of the original string;
`inRun` records being inside a digit run that is being deleted. -/
def enGo (prev : Option Char) (inRun : Bool) : Str → Str
  | [] => []
  | c :: cs =>
    if isDig c then
      if inRun || prevInClass prev then enGo (some c) true cs
      else c :: enGo (some c) false cs
    else c :: enGo (some c) false cs

def stripEndnotes (s : Str) : Str := enGo none false s

example : stripEndnotes "end.12 middle3 done!45".data = "end. middle done!".data := by decide
example : stripEndnotes "12 a1 (2)".data = "12 a (2)".data := by decide
example : stripEndnotes "(a)12".data = "(a)".data := by decide
example : stripEndnotes "x１5".data = "x".data := by decide
example : isDig '１' = true := by decide

/-- The characters of the sentence-split class on source line 151.  The
class literally contains `гҖӮпјҹпјҒ` — the mojibake (UTF-8 read as the wrong
code page) of the CJK marks `。？！` — so these are Cyrillic letters. -/
def cjkSepChars : Str := ['г', 'Җ', 'Ӯ', 'п', 'ј', 'ҹ', 'п', 'ј', 'Ғ']

def isCJKSep (c : Char) : Bool := c ∈ cjkSepChars

/-- The CJK-ideograph test `re.search(r'[一-龥]', s)` (per character). -/
def isCJKChar (c : Char) : Bool := '一' ≤ c && c ≤ '龥'

def hasCJK (s : Str) : Bool := s.any isCJKChar

/-- `re.split(r"[гҖӮпјҹпјҒ]", s)`: split at every separator character,
keeping empty pieces. -/
def splitSen : Str → List Str
  | [] => [[]]
  | c :: cs =>
    if isCJKSep c then [] :: splitSen cs
    else
      match splitSen cs with
      | [] => [[c]]
      | s :: ss => (c :: s) :: ss

/-- The Chinese-language whitespace-removal block (source lines 148-157):
split into sentences, then for each sentence containing a CJK ideograph,
replace every occurrence of that sentence in the current text by its
whitespace-free form (`re.sub(r"\s+", "", sentence)` removes every
whitespace character). -/
def cjkStep (t : Str) : Str :=
  (splitSen t).foldl
    (fun acc s =>
      if hasCJK s then replaceAll s (s.filter (fun c => !isWs c)) acc else acc)
    t

example : splitSen "中 文。ab cd".data = ["中 文。ab cd".data] := by decide
example : cjkStep "中 文。ab cd".data = "中文。abcd".data := by decide

/-- `_sanitize_title` (source lines 170-177): replace the break marker by a
space, delete every character that is neither a word character nor
whitespace (`re.sub(r"[^\w\s]", "")`), strip leading/trailing whitespace,
then collapse every whitespace run to one underscore. -/
def sanitize_title (title break_string : Str) : Str :=
  let title := replaceAll break_string " ".data title
  let sanitized := title.filter (fun c => isWordChar c || isWs c)
  underscoreWs (strip sanitized)

example : sanitize_title "Chapter One".data "@BRK".data = "Chapter_One".data := by decide
example : sanitize_title "a b".data "_".data = "a_b".data := by decide

/-!  The document model.  BeautifulSoup trees are modelled as forests: a
node is either a text node or an element with a tag name, an `href`-presence
flag (only consulted for `a` elements) and a child forest; siblings are
threaded through the last constructor argument so that all recursion is
structural.  `lxml`-parsed documents are always rooted at an `html` element. -/

inductive HForest where
  | nil : HForest
  | txt : Str → HForest → HForest
  | elem : Str → Bool → HForest → HForest → HForest
deriving DecidableEq

/-- The process-wide excluded-tag list (source lines 69-81). -/
def blacklist : List Str :=
  ["[document]".data, "noscript".data, "header".data, "html".data, "meta".data,
   "head".data, "input".data, "script".data, "pre".data, "code".data]

/-- `soup.get_text(strip=False)` / `Tag.text`: concatenation of every text
node in document order. -/
def forestText : HForest → Str
  | .nil => []
  | .txt s rest => s ++ forestText rest
  | .elem _ _ ch rest => forestText ch ++ forestText rest

/-- `for tag in soup.find_all(self.blacklist): tag.decompose()`: every
element whose tag is blacklisted is deleted together with its subtree. -/
def filterBlacklist : HForest → HForest
  | .nil => .nil
  | .txt s rest => .txt s (filterBlacklist rest)
  | .elem tg h ch rest =>
    if tg ∈ blacklist then filterBlacklist rest
    else .elem tg h (filterBlacklist ch) (filterBlacklist rest)

/-- `for a in soup.findAll("a", href=True): a.decompose()`. -/
def filterLinks : HForest → HForest
  | .nil => .nil
  | .txt s rest => .txt s (filterLinks rest)
  | .elem tg h ch rest =>
    if tg = "a".data && h then filterLinks rest
    else .elem tg h (filterLinks ch) (filterLinks rest)

/-- `soup.find(level)`: first element with the given tag in document
(pre-)order; returns its child forest (enough to recover its `.text`). -/
def findTag (lv : Str) : HForest → Option HForest
  | .nil => none
  | .txt _ rest => findTag lv rest
  | .elem tg _ ch rest =>
    if tg = lv then some ch
    else
      match findTag lv ch with
      | some r => some r
      | none => findTag lv rest

/-- The title probe (source lines 120-125): try `title`, `h1`, `h2`, `h3` in
order and return the text of the first hit, else the empty string.  (The
truthiness of a found bs4 tag is modelled as mere presence.) -/
def titleProbe (f : HForest) : Str :=
  match findTag "title".data f with
  | some ch => forestText ch
  | none =>
    match findTag "h1".data f with
    | some ch => forestText ch
    | none =>
      match findTag "h2".data f with
      | some ch => forestText ch
      | none =>
        match findTag "h3".data f with
        | some ch => forestText ch
        | none => []

/-- The newline-mode dispatch (source lines 131-136), applied to
`raw.strip()`; an unrecognized mode raises
`ValueError(f"Invalid newline mode: {mode}")`. -/
def collapseStep (mode m raw : Str) : Except Str Str :=
  if mode = "single".data then .ok (collapseSingle m (strip raw))
  else if mode = "double".data then .ok (collapseDouble m (strip raw))
  else .error ("Invalid newline mode: ".data ++ mode)

/-- One iteration of the `get_chapters` loop (source lines 112-167) on one
document item. -/
def chapterFromDoc (mode break_string : Str) (remove_endnotes : Bool)
    (language : Str) (doc : HForest) : Except Str (Str × Str) :=
  let soup := filterLinks (filterBlacklist doc)
  let title := titleProbe soup
  let raw := prep_text (forestText soup)
  match collapseStep mode break_string raw with
  | .error e => .error e
  | .ok ct =>
    let ct := squashWs ct
    let ct := if remove_endnotes then stripEndnotes ct else ct
    let ct := if List.isPrefixOf "zh".data language then cjkStep ct else ct
    let t := if title = [] then ct.take 60 else title
    .ok (sanitize_title t break_string, ct)

/-- `get_chapters(break_string)`: process the document items in order,
collecting `(sanitized title, cleaned text)` pairs; an invalid newline mode
aborts the whole run with the error, producing no pairs. -/
def get_chapters (mode break_string : Str) (remove_endnotes : Bool)
    (language : Str) : List HForest → Except Str (List (Str × Str))
  | [] => .ok []
  | d :: ds =>
    match chapterFromDoc mode break_string remove_endnotes language d with
    | .error e => .error e
    | .ok pr =>
      match get_chapters mode break_string remove_endnotes language ds with
      | .error e => .error e
      | .ok ps => .ok (pr :: ps)

/-- The `lxml` parse tree of the markup
`<h1>Chapter One</h1><p>He said--"Hello;there."</p>`: lxml wraps the
fragment in `<html><body>…</body></html>`. -/
def scenarioDoc : HForest :=
  .elem "html".data false
    (.elem "body".data false
      (.elem "h1".data false (.txt "Chapter One".data .nil)
        (.elem "p".data false (.txt "He said--\"Hello;there.\"".data .nil) .nil))
      .nil)
    .nil

example :
    get_chapters "single".data "@BRK".data false "en".data [scenarioDoc] =
      .ok [([], [])] := rfl

/-! ### Helper lemmas -/

lemma sanitize_title_nil (m : Str) : sanitize_title [] m = [] := by
  by_cases hm : m = []
  · subst hm; decide
  · simp [sanitize_title, replaceAll, hm, replGo, strip, underscoreWs, uwGo]

lemma titleProbe_nil : titleProbe .nil = [] := rfl

lemma forestText_nil : forestText .nil = [] := rfl

lemma prep_text_nil : prep_text [] = [] := rfl

lemma strip_nil : strip [] = [] := rfl

lemma collapseSingle_nil (m : Str) : collapseSingle m [] = [] := rfl

lemma collapseDouble_nil (m : Str) : collapseDouble m [] = [] := rfl

lemma squashWs_nil : squashWs [] = [] := rfl

lemma stripEndnotes_nil : stripEndnotes [] = [] := rfl

lemma cjkStep_nil : cjkStep [] = [] := rfl

lemma collapseStep_single (m raw : Str) :
    collapseStep "single".data m raw = .ok (collapseSingle m (strip raw)) := rfl

lemma collapseStep_double (m raw : Str) :
    collapseStep "double".data m raw = .ok (collapseDouble m (strip raw)) := rfl

/-! ### Claim theorems -/

/-- C1: on the single document `<h1>Chapter One</h1><p>He said--"Hello;there."</p>`
with newline mode `single`, endnote removal disabled and language `en`,
`get_chapters` emits exactly one chapter pair — but it is `("", "")`, not the
`("Chapter_One", "He said, \"Hello, there.\"")` the specification expects:
the excluded-tag list contains `html`, so the whole lxml-rooted tree is
decomposed before any text is extracted. -/
theorem scenario_run_yields_empty_pair :
    get_chapters "single".data "@BRK".data false "en".data [scenarioDoc] =
      .ok [([], [])] ∧
    (([], []) : Str × Str) ≠
      ("Chapter_One".data, "He said, \"Hello, there.\"".data) :=
  ⟨rfl, by decide⟩

/-- C2: for every document whose parse tree is rooted at an `html` element —
as the lxml-backed parser always produces — the blacklist filter deletes the
entire tree, the title probe finds nothing, the extracted text is empty, and
the emitted chapter pair is `("", "")`, for every valid newline mode and any
endnote/language settings. -/
theorem html_root_gives_empty_chapter (hHref : Bool) (ch : HForest)
    (mode marker lang : Str) (rm : Bool)
    (hmode : mode = "single".data ∨ mode = "double".data) :
    chapterFromDoc mode marker rm lang (.elem "html".data hHref ch .nil) =
      .ok ([], []) := by
  have hsoup :
      filterLinks (filterBlacklist (HForest.elem "html".data hHref ch .nil)) =
        .nil := by
    simp only [filterBlacklist]
    rw [if_pos (by decide : "html".data ∈ blacklist)]
    rfl
  rcases hmode with h | h <;> subst h <;>
    simp +decide [chapterFromDoc, hsoup, collapseStep, titleProbe_nil,
      forestText_nil, prep_text_nil, strip_nil, collapseSingle_nil,
      collapseDouble_nil, squashWs_nil, stripEndnotes_nil, cjkStep_nil,
      sanitize_title_nil]

/-- Witness for C2 at a concrete input. -/
theorem html_root_gives_empty_chapter_witness :
    chapterFromDoc "double".data "@BRK".data true "zh".data
      (.elem "html".data true (.txt "身 体。text".data .nil) .nil) =
      .ok ([], []) :=
  html_root_gives_empty_chapter true (.txt "身 体。text".data .nil)
    "double".data "@BRK".data "zh".data true (Or.inr rfl)

/-- C6: for every newline mode other than `single` and `double`,
`get_chapters` on a non-empty document sequence fails with an error naming
the unsupported mode, producing no chapter pairs. -/
theorem invalid_mode_errors (mode marker lang : Str) (rm : Bool)
    (d : HForest) (ds : List HForest)
    (h1 : mode ≠ "single".data) (h2 : mode ≠ "double".data) :
    get_chapters mode marker rm lang (d :: ds) =
      .error ("Invalid newline mode: ".data ++ mode) := by
  simp [get_chapters, chapterFromDoc, collapseStep, h1, h2]

/-- Witness for C6 at a concrete input. -/
theorem invalid_mode_errors_witness :
    get_chapters "triple".data "@BRK".data false "en".data [.nil] =
      .error ("Invalid newline mode: ".data ++ "triple".data) :=
  invalid_mode_errors "triple".data "@BRK".data "en".data false .nil []
    (by decide) (by decide)

/-! ### Newline-run lemmas for the two collapse modes (claim C3) -/

lemma csGo_of_not_mem (m : Str) :
    ∀ (b : Bool) (s : Str), '\n' ∉ s → csGo m b s = s := by
  intro b s
  induction s generalizing b with
  | nil => intro _; rfl
  | cons c cs ih =>
    intro h
    rw [List.mem_cons, not_or] at h
    have hc : ¬ c = '\n' := fun e => h.1 e.symm
    simp only [csGo, if_neg hc]
    rw [ih false h.2]

lemma csGo_state (m : Str) (b b' : Bool) (s : Str)
    (h : ∀ c, s.head? = some c → c ≠ '\n') : csGo m b s = csGo m b' s := by
  cases s with
  | nil => rfl
  | cons c cs =>
    have hc : ¬ c = '\n' := h c rfl
    simp only [csGo, if_neg hc]

lemma csGo_consume (m s₂ : Str) (h₂ : ∀ c, s₂.head? = some c → c ≠ '\n') :
    ∀ k, csGo m true (List.replicate k '\n' ++ s₂) = csGo m false s₂ := by
  intro k
  induction k with
  | zero => exact csGo_state m true false s₂ h₂
  | succ k ih => simpa [List.replicate_succ, csGo] using ih

lemma csGo_emit (m s₂ : Str) (h₂ : ∀ c, s₂.head? = some c → c ≠ '\n')
    (n : Nat) (hn : 1 ≤ n) :
    csGo m false (List.replicate n '\n' ++ s₂) = m ++ csGo m false s₂ := by
  obtain ⟨k, rfl⟩ : ∃ k, n = k + 1 := ⟨n - 1, by omega⟩
  have e1 : List.replicate (k + 1) '\n' ++ s₂ =
      '\n' :: (List.replicate k '\n' ++ s₂) := by
    simp [List.replicate_succ]
  have e2 : csGo m false (List.replicate (k + 1) '\n' ++ s₂) =
      m ++ csGo m true (List.replicate k '\n' ++ s₂) := by
    rw [e1]; rfl
  rw [e2, csGo_consume m s₂ h₂ k]

lemma csGo_append (m : Str) :
    ∀ (s₁ rest : Str) (b : Bool), '\n' ∉ s₁ → s₁ ≠ [] →
      csGo m b (s₁ ++ rest) = s₁ ++ csGo m false rest := by
  intro s₁
  induction s₁ with
  | nil => intro rest b _ hne; exact absurd rfl hne
  | cons c cs ih =>
    intro rest b h _
    rw [List.mem_cons, not_or] at h
    have hc : ¬ c = '\n' := fun e => h.1 e.symm
    simp only [List.cons_append, csGo, if_neg hc]
    cases cs with
    | nil => rfl
    | cons d ds => exact congrArg (List.cons c) (ih rest false h.2 (by simp))

lemma cdGo_of_not_mem (m : Str) :
    ∀ (b : Bool) (s : Str), '\n' ∉ s → cdGo m b s = s := by
  intro b s
  induction s generalizing b with
  | nil => intro _; rfl
  | cons c cs ih =>
    intro h
    rw [List.mem_cons, not_or] at h
    have hc : ¬ c = '\n' := fun e => h.1 e.symm
    simp only [cdGo, if_neg hc]
    rw [ih false h.2]

lemma cdGo_state (m : Str) (b b' : Bool) (s : Str)
    (h : ∀ c, s.head? = some c → c ≠ '\n') : cdGo m b s = cdGo m b' s := by
  cases s with
  | nil => rfl
  | cons c cs =>
    have hc : ¬ c = '\n' := h c rfl
    simp only [cdGo, if_neg hc]

lemma cdGo_consume (m s₂ : Str) (h₂ : ∀ c, s₂.head? = some c → c ≠ '\n') :
    ∀ k, cdGo m true (List.replicate k '\n' ++ s₂) = cdGo m false s₂ := by
  intro k
  induction k with
  | zero => exact cdGo_state m true false s₂ h₂
  | succ k ih => simpa [List.replicate_succ, cdGo] using ih

lemma cdGo_emit (m s₂ : Str) (h₂ : ∀ c, s₂.head? = some c → c ≠ '\n')
    (n : Nat) (hn : 2 ≤ n) :
    cdGo m false (List.replicate n '\n' ++ s₂) = m ++ cdGo m false s₂ := by
  obtain ⟨k, rfl⟩ : ∃ k, n = k + 2 := ⟨n - 2, by omega⟩
  have e1 : List.replicate (k + 2) '\n' ++ s₂ =
      '\n' :: '\n' :: (List.replicate k '\n' ++ s₂) := by
    simp [List.replicate_succ]
  have e2 : cdGo m false (List.replicate (k + 2) '\n' ++ s₂) =
      m ++ cdGo m true ('\n' :: (List.replicate k '\n' ++ s₂)) := by
    rw [e1]; rfl
  have e3 : ('\n' :: (List.replicate k '\n' ++ s₂)) =
      List.replicate (k + 1) '\n' ++ s₂ := by
    simp [List.replicate_succ]
  rw [e2, e3, cdGo_consume m s₂ h₂ (k + 1)]

lemma cdGo_single (m s₂ : Str) (h₂ : ∀ c, s₂.head? = some c → c ≠ '\n') :
    cdGo m false ('\n' :: s₂) = '\n' :: cdGo m false s₂ := by
  have hne : ¬ (s₂.head? = some '\n') := fun e => (h₂ '\n' e) rfl
  simp [cdGo, hne]

lemma cdGo_append (m : Str) :
    ∀ (s₁ rest : Str) (b : Bool), '\n' ∉ s₁ → s₁ ≠ [] →
      cdGo m b (s₁ ++ rest) = s₁ ++ cdGo m false rest := by
  intro s₁
  induction s₁ with
  | nil => intro rest b _ hne; exact absurd rfl hne
  | cons c cs ih =>
    intro rest b h _
    rw [List.mem_cons, not_or] at h
    have hc : ¬ c = '\n' := fun e => h.1 e.symm
    simp only [List.cons_append, cdGo, if_neg hc]
    cases cs with
    | nil => rfl
    | cons d ds => exact congrArg (List.cons c) (ih rest false h.2 (by simp))

lemma swGo_state (b b' : Bool) (s : Str)
    (h : ∀ c, s.head? = some c → isWs c = false) : swGo b s = swGo b' s := by
  cases s with
  | nil => rfl
  | cons c cs =>
    have hc : isWs c = false := h c rfl
    simp only [swGo, hc, Bool.false_eq_true, ite_false]

lemma swGo_append :
    ∀ (s₁ rest : Str) (b : Bool), (∀ c ∈ s₁, isWs c = false) → s₁ ≠ [] →
      swGo b (s₁ ++ rest) = s₁ ++ swGo false rest := by
  intro s₁
  induction s₁ with
  | nil => intro rest b _ hne; exact absurd rfl hne
  | cons c cs ih =>
    intro rest b h _
    have hc : isWs c = false := h c (by simp)
    simp only [List.cons_append, swGo, hc, Bool.false_eq_true, ite_false]
    cases cs with
    | nil => rfl
    | cons d ds =>
      exact congrArg (List.cons c)
        (ih rest false (fun x hx => h x (by simp [hx])) (by simp))

/-- C3: newline-mode property of the collapsing step.  Whatever text reaches
it, with `s₁` newline-free and `s₂` not starting with a newline: a string
with no newline is left unchanged by both modes; under mode `single` every
maximal run of `n ≥ 1` newlines becomes exactly one break marker; under mode
`double` every maximal run of `n ≥ 2` newlines becomes exactly one break
marker while a lone newline is kept and is then turned into a single space
by the final whitespace squash. -/
theorem newline_mode_collapse (m s₁ s₂ : Str) (n : Nat)
    (h₁ : '\n' ∉ s₁)
    (h₂ : ∀ c, s₂.head? = some c → c ≠ '\n') :
    (collapseSingle m s₁ = s₁) ∧
    (collapseDouble m s₁ = s₁) ∧
    (1 ≤ n → collapseSingle m (s₁ ++ List.replicate n '\n' ++ s₂) =
      s₁ ++ m ++ collapseSingle m s₂) ∧
    (2 ≤ n → collapseDouble m (s₁ ++ List.replicate n '\n' ++ s₂) =
      s₁ ++ m ++ collapseDouble m s₂) ∧
    (collapseDouble m (s₁ ++ ['\n'] ++ s₂) =
      s₁ ++ '\n' :: collapseDouble m s₂) ∧
    ((∀ c ∈ s₁, isWs c = false) → (∀ c, s₂.head? = some c → isWs c = false) →
      squashWs (s₁ ++ ['\n'] ++ s₂) = s₁ ++ ' ' :: squashWs s₂) := by
  refine ⟨csGo_of_not_mem m false s₁ h₁, cdGo_of_not_mem m false s₁ h₁,
    ?_, ?_, ?_, ?_⟩
  · intro hn
    rcases eq_or_ne s₁ [] with rfl | hne
    · simpa using csGo_emit m s₂ h₂ n hn
    · unfold collapseSingle
      rw [List.append_assoc, csGo_append m s₁ _ false h₁ hne,
        csGo_emit m s₂ h₂ n hn, List.append_assoc]
  · intro hn
    rcases eq_or_ne s₁ [] with rfl | hne
    · simpa using cdGo_emit m s₂ h₂ n hn
    · unfold collapseDouble
      rw [List.append_assoc, cdGo_append m s₁ _ false h₁ hne,
        cdGo_emit m s₂ h₂ n hn, List.append_assoc]
  · rcases eq_or_ne s₁ [] with rfl | hne
    · simpa using cdGo_single m s₂ h₂
    · unfold collapseDouble
      rw [List.append_assoc, cdGo_append m s₁ _ false h₁ hne]
      simp only [List.singleton_append, cdGo_single m s₂ h₂]
  · intro hw₁ hw₂
    have hsingle : swGo false ('\n' :: s₂) = ' ' :: swGo false s₂ := by
      have h1 : isWs '\n' = true := by decide
      simp only [swGo, h1, if_true, Bool.false_eq_true, ite_false,
        List.singleton_append]
      exact congrArg (List.cons ' ') (swGo_state true false s₂ hw₂)
    rcases eq_or_ne s₁ [] with rfl | hne
    · simpa using hsingle
    · unfold squashWs
      rw [List.append_assoc, swGo_append s₁ _ false hw₁ hne]
      simpa using congrArg (s₁ ++ ·) hsingle

/-- Witness for C3 at concrete inputs. -/
theorem newline_mode_collapse_witness :
    collapseSingle "B".data ("a".data ++ List.replicate 2 '\n' ++ "c".data) =
      "a".data ++ "B".data ++ collapseSingle "B".data "c".data ∧
    collapseDouble "B".data ("a".data ++ List.replicate 2 '\n' ++ "c".data) =
      "a".data ++ "B".data ++ collapseDouble "B".data "c".data ∧
    squashWs ("a".data ++ ['\n'] ++ "c".data) =
      "a".data ++ ' ' :: squashWs "c".data :=
  ⟨(newline_mode_collapse "B".data "a".data "c".data 2 (by decide)
      (by decide)).2.2.1 (by decide),
   (newline_mode_collapse "B".data "a".data "c".data 2 (by decide)
      (by decide)).2.2.2.1 (by decide),
   (newline_mode_collapse "B".data "a".data "c".data 2 (by decide)
      (by decide)).2.2.2.2.2 (by decide) (by decide)⟩

/-! ### Endnote-stripping lemmas (claim C4) -/

lemma isDig_bounds (c : Char) (h : isDig c = true) :
    (48 ≤ c.toNat ∧ c.toNat ≤ 57) ∨ 1632 ≤ c.toNat := by
  simp only [isDig, List.any_eq_true, Bool.and_eq_true, decide_eq_true_eq] at h
  obtain ⟨r, hrm, hlo, hhi⟩ := h
  have hp : (r.1 = 48 ∧ r.2 = 57) ∨ 1632 ≤ r.1 :=
    (by decide :
      ∀ x ∈ digitRanges, (x.1 = 48 ∧ x.2 = 57) ∨ 1632 ≤ x.1) r hrm
  rcases hp with ⟨e1, e2⟩ | hp
  · left; omega
  · right; omega

lemma digit_not_class (c : Char) (h : isDig c = true) : endnoteClass c = false := by
  have hb := isDig_bounds c h
  rw [Bool.eq_false_iff]
  intro hcl
  simp only [endnoteClass, Bool.or_eq_true, Bool.and_eq_true,
    decide_eq_true_eq] at hcl
  rcases hcl with ((((((((((⟨a, b⟩ | ⟨a, b⟩) | e) | e) | e) | e) | e) | e) |
      e) | e) | e) | e
  · omega
  · omega
  all_goals (subst e; exact absurd h (by decide))

lemma enGo_state (p p' : Option Char) (i i' : Bool) (s : Str)
    (h : ∀ c, s.head? = some c → isDig c = false) :
    enGo p i s = enGo p' i' s := by
  cases s with
  | nil => rfl
  | cons c cs =>
    have hc : isDig c = false := h c rfl
    simp only [enGo, hc, Bool.false_eq_true, ite_false]

lemma enGo_run_rm (s₂ : Str) (hs₂ : ∀ c, s₂.head? = some c → isDig c = false) :
    ∀ (run : Str), (∀ c ∈ run, isDig c = true) → ∀ (prev : Option Char),
      enGo prev true (run ++ s₂) = enGo none false s₂ := by
  intro run
  induction run with
  | nil => intro _ prev; exact enGo_state prev none true false s₂ hs₂
  | cons c cs ih =>
    intro h prev
    have hc : isDig c = true := h c (by simp)
    simp only [List.cons_append, enGo, hc, if_true, Bool.true_or, ite_true]
    exact ih (fun x hx => h x (by simp [hx])) (some c)

lemma enGo_run_keep (s₂ : Str) (hs₂ : ∀ c, s₂.head? = some c → isDig c = false) :
    ∀ (run : Str), (∀ c ∈ run, isDig c = true) → ∀ (pr : Option Char),
      prevInClass pr = false →
      enGo pr false (run ++ s₂) = run ++ enGo none false s₂ := by
  intro run
  induction run with
  | nil => intro _ pr _; exact enGo_state pr none false false s₂ hs₂
  | cons c cs ih =>
    intro h pr hpr
    have hc : isDig c = true := h c (by simp)
    simp only [List.cons_append, enGo, hc, if_true, Bool.false_or, hpr,
      Bool.false_eq_true, ite_false]
    have hprc : prevInClass (some c) = false := digit_not_class c hc
    exact congrArg (List.cons c) (ih (fun x hx => h x (by simp [hx])) (some c) hprc)

lemma enGo_append_last (p : Char) (T K : Str)
    (hp : isDig p = false) (hK : enGo (some p) false T = K) :
    ∀ (s₁ : Str) (prev : Option Char) (ir : Bool), s₁.getLast? = some p →
      enGo prev ir (s₁ ++ T) = enGo prev ir s₁ ++ K := by
  intro s₁
  induction s₁ with
  | nil => intro prev ir h; simp at h
  | cons c cs ih =>
    intro prev ir h
    cases cs with
    | nil =>
      have hc : c = p := by simpa using h
      subst hc
      simp only [List.singleton_append, enGo, hp, Bool.false_eq_true,
        ite_false]
      exact congrArg (List.cons c) hK
    | cons d ds =>
      have h' : (d :: ds).getLast? = some p := by
        rw [List.getLast?_cons_cons] at h; exact h
      by_cases hd : isDig c = true
      · by_cases hb : (ir || prevInClass prev) = true
        · simp only [List.cons_append, enGo, hd, if_true, hb, ite_true]
          exact ih (some c) true h'
        · rw [Bool.not_eq_true] at hb
          simp only [List.cons_append, enGo, hd, if_true, hb,
            Bool.false_eq_true, ite_false]
          exact congrArg (List.cons c) (ih (some c) false h')
      · rw [Bool.not_eq_true] at hd
        simp only [List.cons_append, enGo, hd, Bool.false_eq_true, ite_false]
        exact congrArg (List.cons c) (ih (some c) false h')

/-- C4 (amended): with endnote removal enabled, a maximal decimal-digit run
is removed exactly when it immediately follows a character of the lookbehind
class — a Latin letter, `.`, `,`, `!`, `?`, `;`, the corrupted-quote
characters, `"`, or `)` — and a maximal digit run at the start of the text,
or one preceded by any other character, is preserved unchanged. -/
theorem endnote_strip_characterization (p : Char) (s₁ run s₂ : Str)
    (hp : isDig p = false)
    (hlast : s₁.getLast? = some p)
    (hrun : run ≠ []) (hdig : ∀ c ∈ run, isDig c = true)
    (hs₂ : ∀ c, s₂.head? = some c → isDig c = false) :
    stripEndnotes (s₁ ++ run ++ s₂) =
      stripEndnotes s₁ ++ (if endnoteClass p then [] else run) ++
        stripEndnotes s₂ ∧
    stripEndnotes (run ++ s₂) = run ++ stripEndnotes s₂ := by
  have hK : enGo (some p) false (run ++ s₂) =
      (if endnoteClass p then [] else run) ++ enGo none false s₂ := by
    by_cases hcl : endnoteClass p = true
    · rw [if_pos hcl]
      cases run with
      | nil => exact absurd rfl hrun
      | cons c cs =>
        have hc : isDig c = true := hdig c (by simp)
        simp only [List.cons_append, enGo, hc, if_true, Bool.false_or,
          prevInClass, hcl, ite_true, List.nil_append]
        exact enGo_run_rm s₂ hs₂ cs (fun x hx => hdig x (by simp [hx])) (some c)
    · rw [Bool.not_eq_true] at hcl
      rw [if_neg (by simp [hcl])]
      exact enGo_run_keep s₂ hs₂ run hdig (some p) hcl
  constructor
  · rw [List.append_assoc]
    unfold stripEndnotes
    rw [enGo_append_last p (run ++ s₂)
      ((if endnoteClass p then [] else run) ++ enGo none false s₂) hp hK s₁
      none false hlast, List.append_assoc]
  · unfold stripEndnotes
    exact enGo_run_keep s₂ hs₂ run hdig none rfl

/-- Witness for C4 (amended) at concrete inputs: after `.` the digit run is
removed, after `)` it is also removed (class contains `)`), after `x` it is
removed (letter), and a run at the start of the text survives. -/
theorem endnote_strip_characterization_witness :
    stripEndnotes (")".data ++ "12".data ++ " a".data) =
      stripEndnotes ")".data ++ (if endnoteClass ')' then [] else "12".data) ++
        stripEndnotes " a".data ∧
    stripEndnotes ("12".data ++ " a".data) = "12".data ++ stripEndnotes " a".data :=
  endnote_strip_characterization ')' ")".data "12".data " a".data
    (by decide) (by decide) (by decide) (by decide) (by decide)

/-- Counterexample to C4 as stated: the claim's lookbehind list omits the
closing parenthesis, yet the code removes a digit run that immediately
follows `)`. `claimEndnoteClass` is the claim's own list. -/
def claimEndnoteClass (c : Char) : Bool :=
  ((97 ≤ c.toNat && c.toNat ≤ 122) || (65 ≤ c.toNat && c.toNat ≤ 90)) ||
    c = '.' || c = ',' || c = '!' || c = '?' || c = ';' ||
    c = 'в' || c = 'Җ' || c = 'қ' || c = '"'

theorem endnote_strip_claim_counterexample :
    stripEndnotes "(a)12".data = "(a)".data ∧
    stripEndnotes "(a)12".data ≠ "(a)12".data ∧
    claimEndnoteClass ')' = false := by
  refine ⟨by decide, by decide, by decide⟩

/-! ### No-newline invariant (claim C7) -/

lemma mem_swGo (c : Char) : ∀ (b : Bool) (s : Str),
    c ∈ swGo b s → c = ' ' ∨ isWs c = false := by
  intro b s
  induction s generalizing b with
  | nil => intro h; simp [swGo] at h
  | cons d ds ih =>
    intro h
    by_cases hd : isWs d = true
    · simp only [swGo, hd, if_true] at h
      rcases List.mem_append.mp h with h | h
      · by_cases hb : b = true
        · rw [hb] at h; simp at h
        · rw [Bool.not_eq_true] at hb; rw [hb] at h
          simp at h; exact Or.inl h
      · exact ih true h
    · rw [Bool.not_eq_true] at hd
      simp only [swGo, hd, Bool.false_eq_true, ite_false, List.mem_cons] at h
      rcases h with h | h
      · subst h; exact Or.inr hd
      · exact ih false h

lemma mem_enGo (c : Char) : ∀ (p : Option Char) (i : Bool) (s : Str),
    c ∈ enGo p i s → c ∈ s := by
  intro p i s
  induction s generalizing p i with
  | nil => intro h; simp [enGo] at h
  | cons d ds ih =>
    intro h
    by_cases hd : isDig d = true
    · by_cases hb : (i || prevInClass p) = true
      · simp only [enGo, hd, if_true, hb, ite_true] at h
        exact List.mem_cons_of_mem d (ih (some d) true h)
      · rw [Bool.not_eq_true] at hb
        simp only [enGo, hd, if_true, hb, Bool.false_eq_true, ite_false,
          List.mem_cons] at h
        rcases h with h | h
        · exact h ▸ List.mem_cons_self d ds
        · exact List.mem_cons_of_mem d (ih (some d) false h)
    · rw [Bool.not_eq_true] at hd
      simp only [enGo, hd, Bool.false_eq_true, ite_false, List.mem_cons] at h
      rcases h with h | h
      · exact h ▸ List.mem_cons_self d ds
      · exact List.mem_cons_of_mem d (ih (some d) false h)

lemma mem_replGo (c : Char) (p r : Str) : ∀ (fuel : Nat) (s : Str),
    c ∈ replGo p r fuel s → c ∈ s ∨ c ∈ r := by
  intro fuel
  induction fuel with
  | zero =>
    intro s h
    cases s with
    | nil => simp [replGo] at h
    | cons d ds => exact Or.inl h
  | succ fuel ih =>
    intro s h
    cases s with
    | nil => simp [replGo] at h
    | cons d ds =>
      by_cases hp : p.isPrefixOf (d :: ds) = true
      · simp only [replGo, hp, if_true] at h
        rcases List.mem_append.mp h with h | h
        · exact Or.inr h
        · rcases ih _ h with h | h
          · exact Or.inl (List.mem_cons_of_mem d (List.mem_of_mem_drop h))
          · exact Or.inr h
      · rw [Bool.not_eq_true] at hp
        simp only [replGo, hp, Bool.false_eq_true, ite_false,
          List.mem_cons] at h
        rcases h with h | h
        · exact Or.inl (h ▸ List.mem_cons_self d ds)
        · rcases ih ds h with h | h
          · exact Or.inl (List.mem_cons_of_mem d h)
          · exact Or.inr h

lemma mem_replaceAll (c : Char) (p r s : Str) :
    c ∈ replaceAll p r s → c ∈ s ∨ c ∈ r := by
  intro h
  unfold replaceAll at h
  by_cases hp : p = []
  · rw [if_pos hp] at h
    unfold replaceEmptyPat at h
    rcases List.mem_append.mp h with h | h
    · exact Or.inr h
    · rcases List.mem_flatMap.mp h with ⟨d, hd, hmem⟩
      rcases List.mem_cons.mp hmem with h | h
      · exact Or.inl (h ▸ hd)
      · exact Or.inr h
  · rw [if_neg hp] at h
    exact mem_replGo c p r s.length s h

lemma cjkStep_no_newline (t : Str) (h : '\n' ∉ t) : '\n' ∉ cjkStep t := by
  unfold cjkStep
  generalize splitSen t = l
  induction l generalizing t with
  | nil => simpa using h
  | cons s ss ih =>
    simp only [List.foldl_cons]
    by_cases hs : hasCJK s = true
    · rw [if_pos hs]
      refine ih (replaceAll s (s.filter (fun c => !isWs c)) t) ?_
      intro hmem
      rcases mem_replaceAll '\n' s _ t hmem with hm | hm
      · exact h hm
      · rcases (List.mem_filter.mp hm) with ⟨_, hflt⟩
        simp only [Bool.not_eq_eq_eq_not, Bool.not_true] at hflt
        exact absurd hflt (by decide)
    · rw [if_neg hs]
      exact ih t h

lemma squashWs_no_newline (s : Str) : '\n' ∉ squashWs s := by
  intro h
  rcases mem_swGo '\n' false s h with h | h
  · exact absurd h (by decide)
  · exact absurd h (by decide)

lemma chapter_text_no_newline (mode marker : Str) (rm : Bool) (lang : Str)
    (doc : HForest) (pr : Str × Str)
    (hok : chapterFromDoc mode marker rm lang doc = .ok pr) :
    '\n' ∉ pr.2 := by
  simp only [chapterFromDoc] at hok
  rcases hcs : collapseStep mode marker
      (prep_text (forestText (filterLinks (filterBlacklist doc)))) with e | ct
  · simp only [hcs] at hok
    exact Except.noConfusion hok
  · simp only [hcs] at hok
    injection hok with hok
    subst hok
    have h1 : '\n' ∉ squashWs ct := squashWs_no_newline ct
    have h2 :
        '\n' ∉ (if rm then stripEndnotes (squashWs ct) else squashWs ct) := by
      by_cases hrm : rm = true
      · rw [if_pos hrm]
        intro hmem
        exact h1 (mem_enGo '\n' none false _ hmem)
      · rw [Bool.not_eq_true] at hrm; rw [hrm]; simpa using h1
    show '\n' ∉ (if List.isPrefixOf "zh".data lang = true then
        cjkStep (if rm = true then stripEndnotes (squashWs ct) else squashWs ct)
      else (if rm = true then stripEndnotes (squashWs ct) else squashWs ct))
    by_cases hzh : List.isPrefixOf "zh".data lang = true
    · rw [if_pos hzh]
      exact cjkStep_no_newline _ h2
    · rw [if_neg hzh]
      exact h2

/-- C7: for every valid configuration (newline mode `single` or `double`,
any endnote and language settings) and every sequence of input documents,
every chapter text emitted by `get_chapters` contains no newline
character. -/
theorem chapter_text_has_no_newline (mode marker : Str) (rm : Bool)
    (lang : Str) (docs : List HForest) (ps : List (Str × Str))
    (_hmode : mode = "single".data ∨ mode = "double".data)
    (hok : get_chapters mode marker rm lang docs = .ok ps) :
    ∀ pr ∈ ps, '\n' ∉ pr.2 := by
  induction docs generalizing ps with
  | nil =>
    simp only [get_chapters] at hok
    injection hok with hok
    subst hok
    intro pr hpr
    simp at hpr
  | cons d ds ih =>
    simp only [get_chapters] at hok
    rcases h1 : chapterFromDoc mode marker rm lang d with e | pr₀
    · rw [h1] at hok; simp at hok
    · rw [h1] at hok
      rcases h2 : get_chapters mode marker rm lang ds with e | ps₀
      · rw [h2] at hok; simp at hok
      · rw [h2] at hok
        injection hok with hok
        subst hok
        intro pr hpr
        rcases List.mem_cons.mp hpr with h | h
        · subst h
          exact chapter_text_no_newline mode marker rm lang d pr h1
        · exact ih ps₀ h2 pr h

/-- Witness for C7 at a concrete input. -/
theorem chapter_text_has_no_newline_witness :
    '\n' ∉ ("a_b".data, "a Xb".data).2 :=
  chapter_text_has_no_newline "single".data "X".data false "en".data
    [.txt "a\nb".data .nil] [("a_b".data, "a Xb".data)]
    (Or.inl rfl) rfl ("a_b".data, "a Xb".data) (by decide)

/-- C5: title resolution probes the filtered tree in the fixed priority
order `title`, `h1`, `h2`, `h3` and uses the text of the first matching
element (empty string when none matches); and whenever the probe finds
nothing, the emitted chapter title is the sanitized form of the first 60
characters of the normalized chapter text. -/
theorem title_resolution (f n : HForest) (mode marker lang : Str)
    (rm : Bool) (doc : HForest) (pr : Str × Str) :
    ((findTag "title".data f = some n → titleProbe f = forestText n) ∧
     (findTag "title".data f = none → findTag "h1".data f = some n →
       titleProbe f = forestText n) ∧
     (findTag "title".data f = none → findTag "h1".data f = none →
       findTag "h2".data f = some n → titleProbe f = forestText n) ∧
     (findTag "title".data f = none → findTag "h1".data f = none →
       findTag "h2".data f = none → findTag "h3".data f = some n →
       titleProbe f = forestText n) ∧
     (findTag "title".data f = none → findTag "h1".data f = none →
       findTag "h2".data f = none → findTag "h3".data f = none →
       titleProbe f = [])) ∧
    (titleProbe (filterLinks (filterBlacklist doc)) = [] →
      chapterFromDoc mode marker rm lang doc = .ok pr →
      pr.1 = sanitize_title (pr.2.take 60) marker) := by
  constructor
  · refine ⟨?_, ?_, ?_, ?_, ?_⟩
    · intro h; simp [titleProbe, h]
    · intro h0 h; simp [titleProbe, h0, h]
    · intro h0 h1 h; simp [titleProbe, h0, h1, h]
    · intro h0 h1 h2 h; simp [titleProbe, h0, h1, h2, h]
    · intro h0 h1 h2 h3; simp [titleProbe, h0, h1, h2, h3]
  · intro hprobe hok
    simp only [chapterFromDoc] at hok
    rcases hcs : collapseStep mode marker
        (prep_text (forestText (filterLinks (filterBlacklist doc)))) with e | ct
    · simp only [hcs] at hok
      exact Except.noConfusion hok
    · simp only [hcs, hprobe, if_pos rfl] at hok
      injection hok with hok
      subst hok
      rfl

/-- Witness for C5 at a concrete input: a document with no
`title`/`h1`/`h2`/`h3` element. -/
theorem title_resolution_witness :
    ("hi".data, "hi".data).1 =
      sanitize_title (("hi".data, "hi".data).2.take 60) "@".data :=
  (title_resolution .nil .nil "single".data "@".data "en".data false
    (.txt "hi".data .nil) ("hi".data, "hi".data)).2 rfl rfl

/-! ### Sanitizer lemmas (claims C8, C9) -/

lemma word_not_ws (c : Char) (h : isWordChar c = true) : isWs c = false := by
  rw [Bool.eq_false_iff]
  intro hws
  simp only [isWs, Bool.or_eq_true, decide_eq_true_eq] at hws
  rcases hws with ((((((e | e) | e) | e) | e) | e) | e) <;>
    (subst e; exact absurd h (by decide))

lemma mem_strip (c : Char) (s : Str) (h : c ∈ strip s) : c ∈ s := by
  unfold strip at h
  rw [List.mem_reverse] at h
  have h1 := (List.dropWhile_sublist (l := (s.dropWhile isWs).reverse) isWs).mem h
  rw [List.mem_reverse] at h1
  exact (List.dropWhile_sublist (l := s) isWs).mem h1

lemma mem_uwGo (c : Char) : ∀ (b : Bool) (s : Str),
    c ∈ uwGo b s → c = '_' ∨ (c ∈ s ∧ isWs c = false) := by
  intro b s
  induction s generalizing b with
  | nil => intro h; simp [uwGo] at h
  | cons d ds ih =>
    intro h
    by_cases hd : isWs d = true
    · simp only [uwGo, hd, if_true] at h
      rcases List.mem_append.mp h with h | h
      · by_cases hb : b = true
        · rw [hb] at h; simp at h
        · rw [Bool.not_eq_true] at hb; rw [hb] at h
          simp at h; exact Or.inl h
      · rcases ih true h with h | ⟨hm, hw⟩
        · exact Or.inl h
        · exact Or.inr ⟨List.mem_cons_of_mem d hm, hw⟩
    · rw [Bool.not_eq_true] at hd
      simp only [uwGo, hd, Bool.false_eq_true, ite_false, List.mem_cons] at h
      rcases h with h | h
      · subst h; exact Or.inr ⟨List.mem_cons_self c ds, hd⟩
      · rcases ih false h with h | ⟨hm, hw⟩
        · exact Or.inl h
        · exact Or.inr ⟨List.mem_cons_of_mem d hm, hw⟩

lemma sanitize_chars_word (t m : Str) :
    ∀ c ∈ sanitize_title t m, isWordChar c = true := by
  intro c hc
  simp only [sanitize_title] at hc
  rcases mem_uwGo c false _ hc with rfl | ⟨hmem, hws⟩
  · decide
  · have hfil := mem_strip c _ hmem
    have hkeep := (List.mem_filter.mp hfil).2
    simp only [Bool.or_eq_true, hws] at hkeep
    rcases hkeep with h | h
    · exact h
    · exact absurd h (by simp)

lemma dropWhile_eq_self_of_all (p : Char → Bool) (s : Str)
    (h : ∀ c ∈ s, p c = false) : s.dropWhile p = s := by
  cases s with
  | nil => rfl
  | cons c cs => rw [List.dropWhile_cons, h c (List.mem_cons_self c cs)]; simp

lemma strip_of_no_ws (s : Str) (h : ∀ c ∈ s, isWs c = false) : strip s = s := by
  unfold strip
  rw [dropWhile_eq_self_of_all isWs s h,
    dropWhile_eq_self_of_all isWs s.reverse
      (fun c hc => h c (List.mem_reverse.mp hc)),
    List.reverse_reverse]

lemma uwGo_of_no_ws : ∀ (b : Bool) (s : Str),
    (∀ c ∈ s, isWs c = false) → uwGo b s = s := by
  intro b s
  induction s generalizing b with
  | nil => intro _; rfl
  | cons c cs ih =>
    intro h
    have hc : isWs c = false := h c (List.mem_cons_self c cs)
    simp only [uwGo, hc, Bool.false_eq_true, ite_false]
    rw [ih false (fun x hx => h x (List.mem_cons_of_mem c hx))]

lemma replGo_of_not_infix (p r : Str) :
    ∀ (fuel : Nat) (s : Str), ¬ p <:+: s → replGo p r fuel s = s := by
  intro fuel
  induction fuel with
  | zero => intro s _; cases s <;> rfl
  | succ fuel ih =>
    intro s hs
    cases s with
    | nil => rfl
    | cons c cs =>
      have hp : ¬ (p.isPrefixOf (c :: cs) = true) := fun h =>
        hs (List.isPrefixOf_iff_prefix.mp h).isInfix
      rw [Bool.not_eq_true] at hp
      simp only [replGo, hp, Bool.false_eq_true, ite_false]
      rw [ih cs (fun h => hs (List.infix_cons h))]

lemma replaceAll_of_not_infix (p r s : Str) (hp : p ≠ [])
    (h : ¬ p <:+: s) : replaceAll p r s = s := by
  unfold replaceAll
  rw [if_neg hp]
  exact replGo_of_not_infix p r s.length s h

/-- C8 (amended): `_sanitize_title` replaces the break marker by a space,
removes every character that is neither a word character nor whitespace,
strips leading/trailing whitespace, and collapses whitespace runs to single
underscores.  Every character of the output is a word character, so the
output contains no path-unsafe punctuation, and — provided the break marker
contains at least one non-word character — no occurrence of the break
marker. -/
theorem sanitize_title_properties (t marker : Str) :
    (∀ c ∈ sanitize_title t marker, isWordChar c = true) ∧
    (∀ c ∈ sanitize_title t marker,
      c ∉ ['/', '\\', ':', '*', '?', '"', '<', '>', '|']) ∧
    ((∃ c ∈ marker, isWordChar c = false) →
      ¬ marker <:+: sanitize_title t marker) := by
  have hword := sanitize_chars_word t marker
  refine ⟨hword, ?_, ?_⟩
  · intro c hc hbad
    have hw := hword c hc
    simp only [List.mem_cons, List.not_mem_nil, or_false] at hbad
    rcases hbad with e | e | e | e | e | e | e | e | e <;>
      (subst e; exact absurd hw (by decide))
  · rintro ⟨c, hcm, hcw⟩ hinf
    exact absurd (hword c (hinf.subset hcm)) (by simp [hcw])

/-- Witness for C8 at a concrete input. -/
theorem sanitize_title_properties_witness :
    (∀ c ∈ sanitize_title "a b!".data " @".data, isWordChar c = true) ∧
    (∀ c ∈ sanitize_title "a b!".data " @".data,
      c ∉ ['/', '\\', ':', '*', '?', '"', '<', '>', '|']) ∧
    ¬ (" @".data <:+: sanitize_title "a b!".data " @".data) :=
  ⟨(sanitize_title_properties "a b!".data " @".data).1,
   (sanitize_title_properties "a b!".data " @".data).2.1,
   (sanitize_title_properties "a b!".data " @".data).2.2
     ⟨' ', by decide, by decide⟩⟩

/-- The sanitizer exactly as the claim words it: marker → space, remove
non-word non-whitespace characters, collapse whitespace runs to single
underscores over the whole string, then strip leading and trailing
underscores. -/
def claimSanitize (t marker : Str) : Str :=
  let t1 := replaceAll marker " ".data t
  let t2 := t1.filter (fun c => isWordChar c || isWs c)
  let t3 := underscoreWs t2
  ((t3.dropWhile (fun c => c = '_')).reverse.dropWhile
    (fun c => c = '_')).reverse

/-- Counterexample to C8 as stated: with break marker `"_"` the output
`a_b` embeds the marker; and on the title `"_x"` the claimed steps (which
strip leading/trailing underscores at the end) disagree with the code
(which strips whitespace before underscore-collapsing and keeps the leading
underscore). -/
theorem sanitize_claim_counterexample :
    (sanitize_title "a b".data "_".data = "a_b".data ∧
      "_".data <:+: "a_b".data) ∧
    (sanitize_title "_x".data "@".data = "_x".data ∧
      claimSanitize "_x".data "@".data = "x".data) :=
  ⟨⟨by decide, ⟨"a".data, "b".data, by decide⟩⟩, ⟨by decide, by decide⟩⟩

/-- C9 (amended): sanitization is idempotent whenever the break marker
contains at least one non-word character (as the sentinel break strings used
by callers do). -/
theorem sanitize_title_idempotent (t marker : Str)
    (hm : ∃ c ∈ marker, isWordChar c = false) :
    sanitize_title (sanitize_title t marker) marker =
      sanitize_title t marker := by
  obtain ⟨x, hxm, hxw⟩ := hm
  have hword := sanitize_chars_word t marker
  have hnm : marker ≠ [] := by rintro rfl; simp at hxm
  have hninf : ¬ marker <:+: sanitize_title t marker := fun hinf =>
    absurd (hword x (hinf.subset hxm)) (by simp [hxw])
  have hnws : ∀ c ∈ sanitize_title t marker, isWs c = false :=
    fun c hc => word_not_ws c (hword c hc)
  have h1 : replaceAll marker " ".data (sanitize_title t marker) =
      sanitize_title t marker :=
    replaceAll_of_not_infix marker " ".data (sanitize_title t marker) hnm hninf
  have h2 : (sanitize_title t marker).filter
      (fun c => isWordChar c || isWs c) = sanitize_title t marker :=
    List.filter_eq_self.mpr (fun c hc => by simp [hword c hc])
  have h3 : strip (sanitize_title t marker) = sanitize_title t marker :=
    strip_of_no_ws _ hnws
  have h4 : underscoreWs (sanitize_title t marker) = sanitize_title t marker :=
    uwGo_of_no_ws false _ hnws
  conv_lhs => rw [sanitize_title, h1, h2, h3, h4]

/-- Witness for C9 (amended) at a concrete input. -/
theorem sanitize_title_idempotent_witness :
    sanitize_title (sanitize_title "a b".data " @".data) " @".data =
      sanitize_title "a b".data " @".data :=
  sanitize_title_idempotent "a b".data " @".data ⟨'@', by decide, by decide⟩

/-- Counterexample to C9 as stated: with break marker `"a_b"` (made only of
word characters) sanitizing `"a b"` gives `"a_b"`, and sanitizing that again
replaces the whole string by a space and yields the empty string. -/
theorem sanitize_idempotence_counterexample :
    sanitize_title (sanitize_title "a b".data "a_b".data) "a_b".data ≠
      sanitize_title "a b".data "a_b".data := by decide

/-- C10: the CJK-spacing step does not split on the three CJK
sentence-terminal marks: the split class of source line 151 holds the
mojibake characters `гҖӮпјҹпјҒ` instead of `。？！`.  On
`中 文。ab cd` no split happens, the whole text counts as one CJK-containing
sentence, and the whitespace of the CJK-free sentence `ab cd` is removed as
well — where the claim requires it untouched (`中文。ab cd`). -/
theorem cjk_spacing_mojibake_run :
    (isCJKSep '。' = false ∧ isCJKSep '？' = false ∧ isCJKSep '！' = false) ∧
    splitSen "中 文。ab cd".data = ["中 文。ab cd".data] ∧
    cjkStep "中 文。ab cd".data = "中文。abcd".data ∧
    "中文。abcd".data ≠ "中文。ab cd".data :=
  ⟨⟨by decide, by decide, by decide⟩, by decide, by decide, by decide⟩

example : isWordChar 'в' = true := by decide
example : sanitize_title "第一章".data "@BRK".data = "第一章".data := by decide
example : sanitize_title "в в".data "в_в".data = "в_в".data := by decide
example :
    sanitize_title (sanitize_title "в в".data "в_в".data) "в_в".data = [] := by
  decide
